import Mathlib

/-!
Verification of the query-pipeline core of the `lvmh-financial-rag` repository:
a shallow embedding of `src/reranker.py` and `src/rag_pipeline.py`
(reranking, confidence scoring, response cache with TTL and capacity,
latency/hit metrics), with theorems checking the specified behaviour.

Modelling conventions:
- Python floats are modelled as exact rationals (ℚ); `round(x, n)` is
  modelled as exact round-half-to-even at `n` decimal digits (`pyRound`).
- A passage (`langchain` `Document`) is modelled by its `page_content`
  together with the two metadata fields the pipeline reads:
  `page` (absent modelled as `none`) and `has_numbers`.
- Wall-clock instants are abstract naturals supplied by the caller:
  `now` (for cache timestamps / TTL comparison, in seconds) and
  `elapsed` (the measured latency of the call, in milliseconds).
- The md5 cache key of `question.lower().strip()` is modelled as the
  normalized string itself (the digest is injective for the purposes of
  the pipeline; only key equality is ever observed).
-/

namespace LvmhRag

/-- A retrieved passage: `page_content` plus the metadata fields read by the
pipeline (`metadata.get("page")`, `metadata.get("has_numbers", False)`). -/
structure Document where
  page_content : String
  page : Option Nat
  has_numbers : Bool
deriving DecidableEq, Repr

/-- Python `str.lower()`, modelled per character (ASCII case folding; a
Python string is a sequence of unicode characters, modelled as the
character list of the Lean string). -/
def lowerStr (s : String) : String :=
  ⟨s.data.map Char.toLower⟩

/-- Python `str.strip()`: drop leading and trailing whitespace. -/
def pyStrip (s : String) : String :=
  ⟨((s.data.dropWhile Char.isWhitespace).reverse.dropWhile
      Char.isWhitespace).reverse⟩

/-- Python `s[:n]`: the first `n` characters. -/
def strTake (s : String) (n : Nat) : String :=
  ⟨s.data.take n⟩

/-- Helper of `pySplit`: accumulate the current word (reversed) while
scanning the character list. -/
def wordsAux : List Char → List Char → List String
  | [], acc => if acc = [] then [] else [⟨acc.reverse⟩]
  | c :: cs, acc =>
    if c.isWhitespace then
      if acc = [] then wordsAux cs []
      else (⟨acc.reverse⟩ : String) :: wordsAux cs []
    else wordsAux cs (c :: acc)

/-- Python `str.split()` with no separator: split on whitespace runs,
dropping empty pieces. -/
def pySplit (s : String) : List String :=
  wordsAux s.data []

/-- Does the second character list occur at the start of the first? -/
def startsWithChars : List Char → List Char → Bool
  | _, [] => true
  | [], _ :: _ => false
  | c :: cs, p :: ps => (c = p) && startsWithChars cs ps

/-- Does `pat` occur as a contiguous run inside the character list? -/
def containsChars (pat : List Char) : List Char → Bool
  | [] => startsWithChars [] pat
  | c :: rest => startsWithChars (c :: rest) pat || containsChars pat rest

/-- Python `pat in s` substring test. -/
def strContainsSub (s pat : String) : Bool :=
  containsChars pat.data s.data

/-- The fixed financial-term list of `Reranker.rerank`. -/
def financialTerms : List String :=
  ["revenue", "net sales", "sales", "eur", "€", "million", "billion"]

/-- `Reranker.__init__` weights. -/
def sim_weight : ℚ := 6/10
def keyword_weight : ℚ := 2/10
def length_weight : ℚ := 1/10
def financial_weight : ℚ := 1/10

/-- The per-passage rescoring of `Reranker.rerank` (body of its loop):
keyword overlap, length score, financial boost, weighted sum. -/
def finalScore (query : String) (doc : Document) (sim_score : ℚ) : ℚ :=
  let query_words := (pySplit (lowerStr query)).dedup
  let text := lowerStr doc.page_content
  let doc_words := (pySplit text).dedup
  let keyword_score : ℚ :=
    if query_words = [] then 0
    else ((query_words.filter (fun w => w ∈ doc_words)).length : ℚ)
          / (query_words.length : ℚ)
  let wc := (pySplit doc.page_content).length
  let length_score : ℚ := 1 / (1 + |(wc : ℚ) - 200| / 200)
  let financial_boost : ℚ :=
    (if financialTerms.any (fun k => strContainsSub text k) then 15/100 else 0)
    + (if doc.has_numbers then 10/100 else 0)
  sim_weight * sim_score + keyword_weight * keyword_score
    + length_weight * length_score + financial_weight * financial_boost

/-- Comparator for the descending stable sort
`rescored.sort(key=lambda x: x[1], reverse=True)`. -/
def scoreGe (a b : Document × ℚ) : Bool := decide (b.2 ≤ a.2)

/-- `Reranker.rerank`: rescore every passage, stable-sort by descending final
score (CPython `list.sort` is stable, also with `reverse=True`), truncate to
`top_k`. -/
def rerank (query : String) (docs_scores : List (Document × ℚ)) (top_k : Nat) :
    List (Document × ℚ) :=
  let rescored := docs_scores.map (fun p => (p.1, finalScore query p.1 p.2))
  (rescored.mergeSort scoreGe).take top_k

/-- Round-half-to-even of a rational to an integer (the rounding CPython's
`round` applies; ties never arise at the call sites in this pipeline). -/
def roundHalfEven (x : ℚ) : ℤ :=
  let f := x.floor
  let frac := x - f
  if frac < 1/2 then f
  else if 1/2 < frac then f + 1
  else if f % 2 = 0 then f else f + 1

/-- Python `round(x, n)` on the exact rational model. -/
def pyRound (x : ℚ) (n : Nat) : ℚ :=
  (roundHalfEven (x * 10 ^ n) : ℚ) / 10 ^ n

theorem ratFloor_eq_intFloor (q : ℚ) : q.floor = ⌊q⌋ := by
  rw [Rat.floor_def', Rat.floor_def]

inductive ConfLevel where
  | LOW
  | MEDIUM
  | HIGH
deriving DecidableEq, Repr

/-- Result of `RAGPipeline._compute_confidence`. -/
structure Confidence where
  level : ConfLevel
  score : ℚ
  reasons : List String
deriving DecidableEq, Repr

/-- `RAGPipeline._compute_confidence`.  Scores may be `None`
(`[float(s) for _, s in docs_scores if s is not None]`), hence `Option ℚ`. -/
def computeConfidence (docs_scores : List (Document × Option ℚ)) (answer : String) :
    Confidence :=
  match docs_scores with
  | [] => ⟨.LOW, 0, ["NO_SOURCES"]⟩
  | _ :: _ =>
    match docs_scores.filterMap (fun p => p.2) with
    | [] => ⟨.LOW, 0, ["NO_SCORES"]⟩
    | s0 :: rest =>
      let top := rest.foldl max s0
      let avg := (s0 :: rest).sum / ((s0 :: rest).length : ℚ)
      let has_numbers_answer := answer.data.any Char.isDigit
      let numeric_chunks := (docs_scores.filter (fun p => p.1.has_numbers)).length
      let unique_pages := (docs_scores.map (fun p => p.1.page)).dedup.length
      let score : ℚ :=
        (if 55/100 ≤ top then 40/100 else 0)
        + (if 45/100 ≤ avg then 20/100 else 0)
        + (if 2 ≤ unique_pages then 15/100 else 0)
        + (if 2 ≤ numeric_chunks then 15/100 else 0)
        - (if has_numbers_answer ∧ numeric_chunks = 0 then 20/100 else 0)
      let reasons : List String :=
        (if 55/100 ≤ top then [] else ["LOW_TOP_SIMILARITY"])
        ++ (if 45/100 ≤ avg then [] else ["LOW_AVG_SIMILARITY"])
        ++ (if 2 ≤ unique_pages then [] else ["SINGLE_PAGE_EVIDENCE"])
        ++ (if 2 ≤ numeric_chunks then [] else ["LOW_NUMERIC_EVIDENCE"])
        ++ (if has_numbers_answer ∧ numeric_chunks = 0
            then ["ANSWER_HAS_NUMBERS_WITHOUT_SUPPORT"] else [])
      let clamped := max 0 (min 1 score)
      let level : ConfLevel :=
        if 75/100 ≤ clamped then .HIGH
        else if 50/100 ≤ clamped then .MEDIUM
        else .LOW
      ⟨level, pyRound clamped 3, reasons⟩

/-- One entry of `sources` (`RAGPipeline._format_sources`): page, score
rounded to 3 decimals, 150-character preview plus ellipsis. -/
structure SourceItem where
  page : Option Nat
  score : ℚ
  preview : String
deriving DecidableEq, Repr

/-- One entry of `evidence` (`RAGPipeline._build_evidence`): page, score
rounded to 3 decimals, trimmed 240-character snippet. -/
structure EvidenceItem where
  page : Option Nat
  score : ℚ
  snippet : String
deriving DecidableEq, Repr

/-- The result dict returned by `RAGPipeline.query` / built by `_finalize`.
`timestamp` models `datetime.now().isoformat()` as the abstract instant. -/
structure QueryResult where
  answer : String
  sources : List SourceItem
  evidence : List EvidenceItem
  confidence : Confidence
  latency_ms : Nat
  from_cache : Bool
  timestamp : Nat
deriving DecidableEq, Repr

/-- `RAGPipeline._format_sources`. -/
def formatSources (docs_scores : List (Document × ℚ)) : List SourceItem :=
  docs_scores.map (fun p =>
    ⟨p.1.page, pyRound p.2 3, strTake p.1.page_content 150 ++ "..."⟩)

/-- `RAGPipeline._build_evidence` with its default `max_items = 3`. -/
def buildEvidence (docs_scores : List (Document × ℚ)) : List EvidenceItem :=
  (docs_scores.take 3).map (fun p =>
    ⟨p.1.page, pyRound p.2 3, pyStrip (strTake p.1.page_content 240)⟩)

/-- Rendering of a possibly-missing page number (`meta.get("page", "?")`). -/
def pageStr : Option Nat → String
  | none => "?"
  | some p => toString p

/-- `RAGPipeline._build_context`; the `f"{score:.2f}"` float formatting is
modelled as printing the 2-decimal rounding (the exact text is never
inspected by the pipeline, only passed to the generator). -/
def buildContext (docs_scores : List (Document × ℚ)) : String :=
  String.intercalate "\n\n---\n\n"
    (docs_scores.map (fun p =>
      "[Page " ++ pageStr p.1.page ++ " | score " ++ toString (pyRound p.2 2)
        ++ "]\n" ++ p.1.page_content))

/-- The configuration fields of `Config` read by the pipeline. -/
structure Config where
  enable_cache : Bool
  cache_ttl : Nat
  cache_max_size : Nat
  top_k_retrieval : Nat
  top_k_final : Nat
deriving DecidableEq, Repr

/-- The `Config` values of `src/config.py`. -/
def defaultConfig : Config :=
  { enable_cache := true, cache_ttl := 3600, cache_max_size := 500,
    top_k_retrieval := 10, top_k_final := 5 }

/-- External collaborators (`VectorStore.search`, `LLMClient.generate`),
modelled as deterministic functions. -/
structure Env where
  search : String → Nat → List (Document × ℚ)
  generate : String → String → String

/-- `self.cache`: key → (stored result, insertion instant), as an
insertion-ordered association list (CPython dicts preserve insertion order;
overwriting a key keeps its position). -/
abbrev Cache := List (String × QueryResult × Nat)

/-- Mutable pipeline state: the cache dict and the metrics counters. -/
structure PipeState where
  cache : Cache
  total_queries : Nat
  cache_hits : Nat
  total_latency_ms_e2e : Nat
  total_latency_ms_uncached : Nat
  uncached_queries : Nat
deriving DecidableEq, Repr

/-- The state right after `RAGPipeline.__init__`. -/
def initState : PipeState :=
  { cache := [], total_queries := 0, cache_hits := 0,
    total_latency_ms_e2e := 0, total_latency_ms_uncached := 0,
    uncached_queries := 0 }

/-- `RAGPipeline._get_cache_key`: md5 of `question.lower().strip()`; the
digest is modelled by the normalized string itself. -/
def cacheKey (question : String) : String :=
  pyStrip (lowerStr question)

/-- First binding of a key in the dict. -/
def cacheLookup (key : String) : Cache → Option (QueryResult × Nat)
  | [] => none
  | e :: es => if e.1 = key then some e.2 else cacheLookup key es

/-- `del self.cache[k]`: drop the (unique) binding of `key`. -/
def eraseKey (key : String) : Cache → Cache
  | [] => []
  | e :: es => if e.1 = key then es else e :: eraseKey key es

/-- `RAGPipeline._get_cache`: miss on absent key; an entry strictly older
than the TTL is deleted and reported absent; otherwise the stored result is
returned. Returns the (possibly shrunk) cache alongside. -/
def getCache (ttl : Nat) (now : Nat) (question : String) (cache : Cache) :
    Cache × Option QueryResult :=
  let key := cacheKey question
  match cacheLookup key cache with
  | none => (cache, none)
  | some (res, ts) =>
    if ttl < now - ts then (eraseKey key cache, none)
    else (cache, some res)

/-- `min(self.cache, key=lambda k: self.cache[k][1])` as a fold: the first
entry (in insertion order) with the minimal timestamp, `e` seeding the fold
over the remaining entries `es`. -/
def oldestEntry (e : String × QueryResult × Nat) (es : Cache) :
    String × QueryResult × Nat :=
  es.foldl (fun best x => if x.2.2 < best.2.2 then x else best) e

/-- `self.cache[key] = v`: overwrite in place when the key is bound, else
append (CPython dict insertion order). -/
def insertEntry (key : String) (v : QueryResult × Nat) : Cache → Cache
  | [] => [(key, v)]
  | e :: es => if e.1 = key then (key, v) :: es else e :: insertEntry key v es

/-- `RAGPipeline._set_cache`: when at capacity, evict the entry with the
oldest insertion timestamp, then insert.  On an empty cache with
`cache_max_size = 0` the source raises `ValueError` (Python `min` of an
empty dict); that unreachable-with-positive-capacity branch is modelled as a
no-op eviction. -/
def setCache (max_size : Nat) (now : Nat) (question : String)
    (result : QueryResult) (cache : Cache) : Cache :=
  let key := cacheKey question
  let cache1 :=
    if max_size ≤ cache.length then
      match cache with
      | [] => []
      | e :: es => eraseKey (oldestEntry e es).1 (e :: es)
    else cache
  insertEntry key (result, now) cache1

/-- `RAGPipeline._finalize`: accumulate E2E latency always, uncached
latency and count only when not from cache, build the result (confidence,
evidence, sources), and write through to the cache when permitted. -/
def finalize (cfg : Config) (st : PipeState) (question answer : String)
    (docs_scores : List (Document × ℚ)) (from_cache : Bool)
    (allow_cache_write : Bool) (now elapsed : Nat) : PipeState × QueryResult :=
  let st1 := { st with total_latency_ms_e2e := st.total_latency_ms_e2e + elapsed }
  let st2 :=
    if from_cache then st1
    else { st1 with
            uncached_queries := st1.uncached_queries + 1,
            total_latency_ms_uncached := st1.total_latency_ms_uncached + elapsed }
  let result : QueryResult :=
    { answer := answer
      sources := formatSources docs_scores
      evidence := buildEvidence docs_scores
      confidence := computeConfidence
        (docs_scores.map (fun p => (p.1, some p.2))) answer
      latency_ms := elapsed
      from_cache := from_cache
      timestamp := now }
  let st3 :=
    if allow_cache_write && !from_cache then
      { st2 with cache := setCache cfg.cache_max_size now question result st2.cache }
    else st2
  (st3, result)

/-- The retrieval / rerank / generate / finalize part of `RAGPipeline.query`
(everything after the cache read misses). -/
def queryMiss (cfg : Config) (env : Env) (st : PipeState)
    (question_clean : String) (top_k : Option Nat) (use_rerank : Bool)
    (allow_cache_write : Bool) (now elapsed : Nat) : PipeState × QueryResult :=
  let k := top_k.getD cfg.top_k_retrieval
  let docs_scores := env.search question_clean k
  match docs_scores with
  | [] =>
    finalize cfg st question_clean
      "No relevant information found in the document." [] false
      allow_cache_write now elapsed
  | _ :: _ =>
    let ds :=
      if use_rerank then rerank question_clean docs_scores cfg.top_k_final
      else docs_scores.take cfg.top_k_final
    let answer := env.generate (buildContext ds) question_clean
    finalize cfg st question_clean answer ds false allow_cache_write now elapsed

/-- `RAGPipeline.query`.  `question = none` models Python `None`
(`(question or "").strip()`); `now`/`elapsed` are the call's wall-clock
instant and measured latency. -/
def query (cfg : Config) (env : Env) (st : PipeState) (question : Option String)
    (top_k : Option Nat) (use_cache : Bool) (use_rerank : Bool)
    (now elapsed : Nat) : PipeState × QueryResult :=
  let st0 := { st with total_queries := st.total_queries + 1 }
  let question_clean := pyStrip (question.getD "")
  if question_clean = "" then
    finalize cfg st0 "" "Empty question." [] false false now elapsed
  else if use_cache && cfg.enable_cache then
    match getCache cfg.cache_ttl now question_clean st0.cache with
    | (cache2, some cached) =>
      let st1 := { st0 with
                    cache := cache2,
                    cache_hits := st0.cache_hits + 1,
                    total_latency_ms_e2e := st0.total_latency_ms_e2e + elapsed }
      (st1, { cached with from_cache := true, latency_ms := elapsed,
                          timestamp := now })
    | (cache2, none) =>
      queryMiss cfg env { st0 with cache := cache2 } question_clean top_k
        use_rerank true now elapsed
  else
    queryMiss cfg env st0 question_clean top_k use_rerank false now elapsed

/-- The metrics view returned by `RAGPipeline.get_metrics` (`db_stats`, a
pass-through from the vector store, is out of scope). -/
structure MetricsView where
  total_queries : Nat
  cache_hits : Nat
  cache_hit_rate : ℚ
  avg_latency_e2e_ms : Option ℚ
  avg_latency_uncached_ms : Option ℚ
  cache_size : Nat
deriving DecidableEq, Repr

/-- `RAGPipeline.get_metrics`: rates and averages computed on read from the
stored counters, rounded (rate to 3 decimals, averages to 2), `None` on zero
denominators. -/
def get_metrics (st : PipeState) : MetricsView :=
  let tq := st.total_queries
  let uq := st.uncached_queries
  let avg_e2e : Option ℚ :=
    if tq = 0 then none else some ((st.total_latency_ms_e2e : ℚ) / (tq : ℚ))
  let avg_uncached : Option ℚ :=
    if uq = 0 then none else some ((st.total_latency_ms_uncached : ℚ) / (uq : ℚ))
  let cache_rate : ℚ := if tq = 0 then 0 else (st.cache_hits : ℚ) / (tq : ℚ)
  { total_queries := tq
    cache_hits := st.cache_hits
    cache_hit_rate := pyRound cache_rate 3
    avg_latency_e2e_ms := avg_e2e.map (fun a => pyRound a 2)
    avg_latency_uncached_ms := avg_uncached.map (fun a => pyRound a 2)
    cache_size := st.cache.length }

/-! ### Spec-side restatement of the reranker scoring formula (for C1)

These definitions follow the spec's words (weights 0.6/0.2/0.1/0.1, keyword
overlap `|queryWords ∩ passageWords| / |queryWords|` under case-folded
whitespace tokenization, length fit `1 / (1 + |wordCount − 200| / 200)`,
financial boost `0.15 + 0.10`), to be compared with the source embedding
`finalScore`. -/

/-- Keyword overlap as the spec states it: intersection of case-folded
whitespace-tokenized word sets over the query word-set size, 0 for a
wordless query. -/
def specKeywordOverlap (query : String) (doc : Document) : ℚ :=
  let qws := (pySplit (lowerStr query)).dedup
  let pws := (pySplit (lowerStr doc.page_content)).dedup
  if qws = [] then 0
  else ((qws.filter (fun w => w ∈ pws)).length : ℚ) / (qws.length : ℚ)

/-- Length fit as the spec states it, on the passage's word count. -/
def specLengthFit (doc : Document) : ℚ :=
  1 / (1 + |((pySplit doc.page_content).length : ℚ) - 200| / 200)

/-- Financial boost as the spec states it: 0.15 for a financial term in the
lowercased text, plus 0.10 when the passage is flagged `has_numbers`. -/
def specFinancialBoost (doc : Document) : ℚ :=
  (if financialTerms.any (fun k => strContainsSub (lowerStr doc.page_content) k)
   then 15/100 else 0)
  + (if doc.has_numbers then 10/100 else 0)

/-- The spec's final-score formula. -/
def specFinalScore (query : String) (doc : Document) (sim : ℚ) : ℚ :=
  (6/10) * sim + (2/10) * specKeywordOverlap query doc
    + (1/10) * specLengthFit doc + (1/10) * specFinancialBoost doc

theorem finalScore_eq_spec (query : String) (doc : Document) (sim : ℚ) :
    finalScore query doc sim = specFinalScore query doc sim := rfl

theorem scoreGe_trans (a b c : Document × ℚ) (hab : scoreGe a b = true)
    (hbc : scoreGe b c = true) : scoreGe a c = true := by
  simp only [scoreGe, decide_eq_true_eq] at *
  exact le_trans hbc hab

theorem scoreGe_total (a b : Document × ℚ) : (scoreGe a b || scoreGe b a) = true := by
  simp only [scoreGe, Bool.or_eq_true, decide_eq_true_eq]
  exact le_total b.2 a.2

/-- A stable sort leaves the relative order of equal-score elements intact:
filtering the sorted list at any fixed score gives the same list as
filtering the input. -/
theorem mergeSort_filter_score (l : List (Document × ℚ)) (v : ℚ) :
    (l.mergeSort scoreGe).filter (fun x => decide (x.2 = v))
      = l.filter (fun x => decide (x.2 = v)) := by
  set p : Document × ℚ → Bool := fun x => decide (x.2 = v) with hp
  have hmem : ∀ x ∈ l.filter p, x.2 = v := by
    intro x hx
    have := (List.mem_filter.mp hx).2
    simpa [hp] using this
  have hpw : (l.filter p).Pairwise (fun a b => scoreGe a b = true) := by
    refine List.pairwise_of_forall_mem_list ?_
    intro a ha b hb
    simp only [scoreGe, decide_eq_true_eq]
    rw [hmem a ha, hmem b hb]
  have hsub : (l.filter p).Sublist (l.mergeSort scoreGe) :=
    List.sublist_mergeSort scoreGe_trans scoreGe_total hpw (List.filter_sublist l)
  have hsub2 : ((l.filter p).filter p).Sublist ((l.mergeSort scoreGe).filter p) :=
    hsub.filter p
  have hidem : (l.filter p).filter p = l.filter p := by
    simp [List.filter_filter]
  rw [hidem] at hsub2
  have hlen : ((l.mergeSort scoreGe).filter p).length = (l.filter p).length :=
    ((List.mergeSort_perm l scoreGe).filter p).length_eq
  exact (hsub2.eq_of_length hlen.symm).symm

/-- C1: `rerank` rescores each passage to
0.6·similarity + 0.2·keywordOverlap + 0.1·lengthFit + 0.1·financialBoost
(keyword overlap as word-set intersection over query word-set size under
case-folded whitespace tokenization, length fit 1/(1+|wc−200|/200),
financial boost 0.15 for a financial term plus 0.10 for `has_numbers`),
returns them sorted by non-increasing final score with ties kept in the
original relative order (stable sort), with length at most `top_k`; the
final score is not clamped to [0,1] (a returned score can exceed 1). -/
theorem C1_rerank_formula_order_stability (query : String)
    (docs_scores : List (Document × ℚ)) (top_k : Nat) :
    (∀ x ∈ rerank query docs_scores top_k, ∃ p ∈ docs_scores,
        x = (p.1, specFinalScore query p.1 p.2))
    ∧ (rerank query docs_scores top_k).Pairwise (fun a b => b.2 ≤ a.2)
    ∧ (rerank query docs_scores top_k).length ≤ top_k
    ∧ (∀ v : ℚ,
        ((rerank query docs_scores top_k).filter (fun x => decide (x.2 = v))).Sublist
          ((docs_scores.map (fun p => (p.1, specFinalScore query p.1 p.2))).filter
            (fun x => decide (x.2 = v))))
    ∧ ((1 : ℚ) < specFinalScore "x" ⟨"revenue", none, true⟩ 2
        ∧ rerank "x" [(⟨"revenue", none, true⟩, 2)] 5
            = [(⟨"revenue", none, true⟩, specFinalScore "x" ⟨"revenue", none, true⟩ 2)]) := by
  refine ⟨?_, ?_, ?_, ?_, ?_⟩
  · intro x hx
    have hx1 : x ∈ (docs_scores.map
        (fun p => (p.1, finalScore query p.1 p.2))).mergeSort scoreGe :=
      List.mem_of_mem_take hx
    have hx2 : x ∈ docs_scores.map (fun p => (p.1, finalScore query p.1 p.2)) :=
      List.mem_mergeSort.mp hx1
    obtain ⟨p, hpmem, hpx⟩ := List.mem_map.mp hx2
    exact ⟨p, hpmem, by rw [← hpx, finalScore_eq_spec]⟩
  · have hs : ((docs_scores.map
        (fun p => (p.1, finalScore query p.1 p.2))).mergeSort scoreGe).Pairwise
        (fun a b => scoreGe a b = true) :=
      List.sorted_mergeSort scoreGe_trans scoreGe_total _
    have ht := List.Pairwise.sublist (List.take_sublist top_k _) hs
    exact ht.imp (fun h => by simpa [scoreGe, decide_eq_true_eq] using h)
  · exact List.length_take_le top_k _
  · intro v
    have h1 : ((rerank query docs_scores top_k).filter
        (fun x => decide (x.2 = v))).Sublist
        (((docs_scores.map
          (fun p => (p.1, finalScore query p.1 p.2))).mergeSort scoreGe).filter
          (fun x => decide (x.2 = v))) :=
      (List.take_sublist top_k _).filter _
    rw [mergeSort_filter_score] at h1
    have hfs : docs_scores.map (fun p => (p.1, finalScore query p.1 p.2))
        = docs_scores.map (fun p => (p.1, specFinalScore query p.1 p.2)) := rfl
    rw [hfs] at h1
    exact h1
  · constructor
    · have hq : (pySplit (lowerStr "x")).dedup = ["x"] := by decide
      have hp : (pySplit (lowerStr "revenue")).dedup = ["revenue"] := by decide
      have hf : (List.filter (fun w => decide (w = "revenue")) ["x"]).length = 0 := by
        decide
      have hm : (List.filter (fun w =>
          decide (w ∈ pySplit (lowerStr "revenue"))) ["x"]).length = 0 := by decide
      have hw : (pySplit "revenue").length = 1 := by decide
      have hb : (financialTerms.any fun k =>
          strContainsSub (lowerStr "revenue") k) = true := by decide
      have habs : |(1 : ℚ) - 200| = 199 := by
        rw [abs_of_neg (by norm_num)]; norm_num
      norm_num [specFinalScore, specKeywordOverlap, specLengthFit,
        specFinancialBoost, hq, hp, hf, hm, hw, hb, habs]
    · simp [rerank, List.mergeSort_singleton, finalScore_eq_spec]

/-- C1 witness: the theorem applied at a one-passage input. -/
theorem C1_rerank_witness :
    (rerank "revenue" [(⟨"revenue 2023", some 1, true⟩, 1/2)] 5).length ≤ 5 :=
  (C1_rerank_formula_order_stability "revenue"
    [(⟨"revenue 2023", some 1, true⟩, 1/2)] 5).2.2.1

/-! ### C2: the confidence scorer -/

theorem foldl_max_mem (s0 : ℚ) (l : List ℚ) :
    l.foldl max s0 ∈ s0 :: l := by
  induction l generalizing s0 with
  | nil => simp
  | cons x xs ih =>
    rw [List.foldl_cons]
    rcases List.mem_cons.mp (ih (max s0 x)) with h1 | h1
    · rw [h1]
      rcases max_choice s0 x with hm | hm <;> rw [hm]
      · exact List.mem_cons_self _ _
      · exact List.mem_cons.mpr (Or.inr (List.mem_cons_self _ _))
    · exact List.mem_cons.mpr (Or.inr (List.mem_cons.mpr (Or.inr h1)))

theorem le_foldl_max (s0 : ℚ) (l : List ℚ) :
    s0 ≤ l.foldl max s0 ∧ ∀ x ∈ l, x ≤ l.foldl max s0 := by
  induction l generalizing s0 with
  | nil => simp
  | cons x xs ih =>
    obtain ⟨h1, h2⟩ := ih (max s0 x)
    refine ⟨le_trans (le_max_left s0 x) h1, ?_⟩
    intro y hy
    rcases List.mem_cons.mp hy with rfl | hy
    · exact le_trans (le_max_right s0 y) h1
    · exact h2 y hy

/-- C2: `_compute_confidence` is a pure function of the final passages and
answer text: empty passages give `{LOW, 0, [NO_SOURCES]}`; passages with all
scores missing give `{LOW, 0, [NO_SCORES]}`; otherwise the score accumulates
+0.40 for max(scores) ≥ 0.55, +0.20 for mean ≥ 0.45, +0.15 for ≥ 2 distinct
pages, +0.15 for ≥ 2 `has_numbers` passages, −0.20 when the answer contains
a digit but no passage has numbers (each failed check appending its reason
code), clamped to [0,1] before rounding to 3 decimals, with level HIGH at
clamped ≥ 0.75, MEDIUM at ≥ 0.50, else LOW; the worked example with scores
[0.90, 0.85, 0.80], three distinct pages and all `has_numbers` yields score
0.90, level HIGH. -/
theorem C2_confidence_spec :
    (∀ answer, computeConfidence [] answer = ⟨.LOW, 0, ["NO_SOURCES"]⟩)
    ∧ (∀ d ds answer, (∀ p ∈ d :: ds, p.2 = none) →
        computeConfidence (d :: ds) answer = ⟨.LOW, 0, ["NO_SCORES"]⟩)
    ∧ (∀ ds answer s0 rest,
        ds.filterMap (fun p => p.2) = s0 :: rest →
        ∃ top avg numeric_chunks unique_pages clamped,
          top ∈ s0 :: rest ∧ (∀ x ∈ s0 :: rest, x ≤ top)
          ∧ avg = (s0 :: rest).sum / (((s0 :: rest).length : ℚ))
          ∧ numeric_chunks = (ds.filter (fun p => p.1.has_numbers)).length
          ∧ unique_pages = (ds.map (fun p => p.1.page)).dedup.length
          ∧ clamped = max 0 (min 1
              ((if 55/100 ≤ top then (40/100 : ℚ) else 0)
               + (if 45/100 ≤ avg then 20/100 else 0)
               + (if 2 ≤ unique_pages then 15/100 else 0)
               + (if 2 ≤ numeric_chunks then 15/100 else 0)
               - (if answer.data.any Char.isDigit ∧ numeric_chunks = 0
                  then 20/100 else 0)))
          ∧ computeConfidence ds answer =
             ⟨if 75/100 ≤ clamped then .HIGH
               else if 50/100 ≤ clamped then .MEDIUM else .LOW,
              pyRound clamped 3,
              (if 55/100 ≤ top then [] else ["LOW_TOP_SIMILARITY"])
              ++ (if 45/100 ≤ avg then [] else ["LOW_AVG_SIMILARITY"])
              ++ (if 2 ≤ unique_pages then [] else ["SINGLE_PAGE_EVIDENCE"])
              ++ (if 2 ≤ numeric_chunks then [] else ["LOW_NUMERIC_EVIDENCE"])
              ++ (if answer.data.any Char.isDigit ∧ numeric_chunks = 0
                  then ["ANSWER_HAS_NUMBERS_WITHOUT_SUPPORT"] else [])⟩)
    ∧ computeConfidence
        [(⟨"a", some 10, true⟩, some (9/10)), (⟨"b", some 11, true⟩, some (85/100)),
         (⟨"c", some 49, true⟩, some (8/10))] "In 2023 revenue was 86.2 billion" =
        ⟨.HIGH, 9/10, []⟩ := by
  refine ⟨fun answer => rfl, ?_, ?_, ?_⟩
  · intro d ds answer hall
    have hnil : (d :: ds).filterMap (fun p => p.2) = [] :=
      List.filterMap_eq_nil_iff.mpr hall
    simp only [computeConfidence, hnil]
  · intro ds answer s0 rest h
    refine ⟨rest.foldl max s0, _, _, _, _, foldl_max_mem s0 rest, ?_,
      rfl, rfl, rfl, rfl, ?_⟩
    · intro x hx
      rcases List.mem_cons.mp hx with rfl | hx
      · exact (le_foldl_max x rest).1
      · exact (le_foldl_max s0 rest).2 x hx
    · cases ds with
      | nil => simp at h
      | cons d ds =>
        simp only [computeConfidence, h]
  · have hdd : ([some 10, some 11, some 49] : List (Option Nat)).dedup
        = [some 10, some 11, some 49] := by decide
    have hdig : ("In 2023 revenue was 86.2 billion".data.any Char.isDigit) = true := by
      decide
    norm_num [computeConfidence, pyRound, roundHalfEven, ratFloor_eq_intFloor,
      max_def, min_def, List.filterMap_cons, List.foldl_cons, List.sum_cons,
      hdd, hdig]

/-- C2 witness: the base cases and formula applied at concrete inputs. -/
theorem C2_confidence_witness :
    computeConfidence [(⟨"t", none, false⟩, none)] "a" = ⟨.LOW, 0, ["NO_SCORES"]⟩ :=
  C2_confidence_spec.2.1 (⟨"t", none, false⟩, none) [] "a" (by simp)

/-! ### C3 / C4 / C10: the empty-question path of `query` -/

/-- A trivial environment for concrete runs: retrieval finds nothing, the
generator returns a fixed string. -/
def envEmpty : Env := ⟨fun _ _ => [], fun _ _ => "generated"⟩

/-- On a question that is blank after stripping, `query` takes the
short-circuit path: total queries and both latency sums are bumped (the
empty path runs through `_finalize` with `from_cache=False`, so it counts
as an uncached query), and the canned result is returned with no cache
write. -/
theorem query_blank (cfg : Config) (env : Env) (st : PipeState)
    (question : Option String) (top_k : Option Nat) (use_cache use_rerank : Bool)
    (now elapsed : Nat) (h : pyStrip (question.getD "") = "") :
    query cfg env st question top_k use_cache use_rerank now elapsed =
      ({ st with
          total_queries := st.total_queries + 1,
          total_latency_ms_e2e := st.total_latency_ms_e2e + elapsed,
          uncached_queries := st.uncached_queries + 1,
          total_latency_ms_uncached := st.total_latency_ms_uncached + elapsed },
       { answer := "Empty question.", sources := [], evidence := [],
         confidence := ⟨.LOW, 0, ["NO_SOURCES"]⟩, latency_ms := elapsed,
         from_cache := false, timestamp := now }) := by
  simp [query, h, finalize, formatSources, buildEvidence, computeConfidence]

/-- C3: for every question blank after trimming, `query` returns the
"Empty question." result with empty sources and evidence, confidence level
LOW, `from_cache = false`, and the cache is left unchanged. -/
theorem C3_empty_question (cfg : Config) (env : Env) (st : PipeState)
    (question : Option String) (top_k : Option Nat) (use_cache use_rerank : Bool)
    (now elapsed : Nat) (h : pyStrip (question.getD "") = "") :
    (query cfg env st question top_k use_cache use_rerank now elapsed).2.answer
        = "Empty question."
    ∧ (query cfg env st question top_k use_cache use_rerank now elapsed).2.sources = []
    ∧ (query cfg env st question top_k use_cache use_rerank now elapsed).2.evidence = []
    ∧ (query cfg env st question top_k use_cache use_rerank now
        elapsed).2.confidence.level = .LOW
    ∧ (query cfg env st question top_k use_cache use_rerank now
        elapsed).2.from_cache = false
    ∧ (query cfg env st question top_k use_cache use_rerank now elapsed).1.cache
        = st.cache := by
  rw [query_blank cfg env st question top_k use_cache use_rerank now elapsed h]
  exact ⟨rfl, rfl, rfl, rfl, rfl, rfl⟩

/-- C3 witness: a whitespace-only question on the initial state. -/
theorem C3_empty_question_witness :
    (query defaultConfig envEmpty initState (some "  ") none true true 0 5).2.answer
        = "Empty question."
    ∧ (query defaultConfig envEmpty initState (some "  ") none true true 0 5).1.cache
        = initState.cache :=
  ⟨(C3_empty_question defaultConfig envEmpty initState (some "  ") none true true 0 5
      (by decide)).1,
   (C3_empty_question defaultConfig envEmpty initState (some "  ") none true true 0 5
      (by decide)).2.2.2.2.2⟩

/-- C4 counterexample: on a blank question, the code DOES increment
`uncached_queries` and DOES add the latency to the uncached sum
(`_finalize` is reached with `from_cache=False`), contradicting the claim
that the empty path is excluded from uncached accounting. -/
theorem C4_counterexample :
    (query defaultConfig envEmpty initState (some " ") none true true 0
        7).1.uncached_queries = initState.uncached_queries + 1
    ∧ (query defaultConfig envEmpty initState (some " ") none true true 0
        7).1.total_latency_ms_uncached = initState.total_latency_ms_uncached + 7 := by
  rw [query_blank defaultConfig envEmpty initState (some " ") none true true 0 7
    (by decide)]
  exact ⟨rfl, rfl⟩

/-- C4 (amended): a blank-question call increments `total_queries` and adds
its latency to the E2E sum, and also increments `uncached_queries` and adds
its latency to the uncached sum. -/
theorem C4_empty_question_metrics (cfg : Config) (env : Env) (st : PipeState)
    (question : Option String) (top_k : Option Nat) (use_cache use_rerank : Bool)
    (now elapsed : Nat) (h : pyStrip (question.getD "") = "") :
    (query cfg env st question top_k use_cache use_rerank now
        elapsed).1.total_queries = st.total_queries + 1
    ∧ (query cfg env st question top_k use_cache use_rerank now
        elapsed).1.total_latency_ms_e2e = st.total_latency_ms_e2e + elapsed
    ∧ (query cfg env st question top_k use_cache use_rerank now
        elapsed).1.uncached_queries = st.uncached_queries + 1
    ∧ (query cfg env st question top_k use_cache use_rerank now
        elapsed).1.total_latency_ms_uncached
        = st.total_latency_ms_uncached + elapsed := by
  rw [query_blank cfg env st question top_k use_cache use_rerank now elapsed h]
  exact ⟨rfl, rfl, rfl, rfl⟩

/-- C4 witness: the amended metrics accounting at a concrete blank call. -/
theorem C4_empty_question_metrics_witness :
    (query defaultConfig envEmpty initState (some "\t") none true true 0
        3).1.total_queries = initState.total_queries + 1 :=
  (C4_empty_question_metrics defaultConfig envEmpty initState (some "\t") none
    true true 0 3 (by decide)).1

/-- C10: `query` with `question = None` does not raise: `None` is coerced
to the empty string (`(question or "").strip()`), follows the empty-question
path, and returns the "Empty question." result with empty sources and
evidence, confidence LOW, `from_cache = false`, and no cache write. -/
theorem C10_none_question (cfg : Config) (env : Env) (st : PipeState)
    (top_k : Option Nat) (use_cache use_rerank : Bool) (now elapsed : Nat) :
    (query cfg env st none top_k use_cache use_rerank now elapsed).2.answer
        = "Empty question."
    ∧ (query cfg env st none top_k use_cache use_rerank now elapsed).2.sources = []
    ∧ (query cfg env st none top_k use_cache use_rerank now elapsed).2.evidence = []
    ∧ (query cfg env st none top_k use_cache use_rerank now
        elapsed).2.confidence.level = .LOW
    ∧ (query cfg env st none top_k use_cache use_rerank now elapsed).2.from_cache
        = false
    ∧ (query cfg env st none top_k use_cache use_rerank now elapsed).1.cache
        = st.cache := by
  rw [query_blank cfg env st none top_k use_cache use_rerank now elapsed (by decide)]
  exact ⟨rfl, rfl, rfl, rfl, rfl, rfl⟩

/-! ### C5: cache TTL expiry -/

/-- A small concrete stored result for cache examples. -/
def resA : QueryResult :=
  { answer := "ans", sources := [], evidence := [],
    confidence := ⟨.LOW, 0, []⟩, latency_ms := 1, from_cache := false,
    timestamp := 0 }

/-- C5 counterexample: with TTL 10 and an entry inserted at time 0, a read
at time exactly 10 = T + TTL still RETURNS the stored entry (the source
tests `now - ts > ttl`, strictly), contradicting "absent at any time
≥ T + TTL". -/
theorem C5_counterexample :
    getCache 10 10 "q" [("q", resA, 0)] = ([("q", resA, 0)], some resA) := by
  decide

/-- C5 (amended): an entry with timestamp `ts` is treated as absent and
physically removed by a read strictly after `ts + TTL`, while a read at any
time ≤ `ts + TTL` returns the stored result. -/
theorem C5_ttl_expiry (ttl now : Nat) (question : String) (res : QueryResult)
    (ts : Nat) (cache : Cache)
    (hlk : cacheLookup (cacheKey question) cache = some (res, ts)) :
    (ts + ttl < now →
      getCache ttl now question cache = (eraseKey (cacheKey question) cache, none))
    ∧ (now ≤ ts + ttl →
      getCache ttl now question cache = (cache, some res)) := by
  constructor
  · intro h
    simp only [getCache, hlk]
    rw [if_pos (by omega)]
  · intro h
    simp only [getCache, hlk]
    rw [if_neg (by omega)]

/-- C5 witness: the amended theorem at a concrete expired read. -/
theorem C5_ttl_expiry_witness :
    getCache 10 11 "q" [("q", resA, 0)]
      = (eraseKey (cacheKey "q") [("q", resA, 0)], none) :=
  (C5_ttl_expiry 10 11 "q" resA 0 [("q", resA, 0)] (by decide)).1 (by decide)

/-! ### C6: cache capacity -/

theorem eraseKey_length_le (key : String) (c : Cache) :
    (eraseKey key c).length ≤ c.length := by
  induction c with
  | nil => simp [eraseKey]
  | cons e es ih =>
    by_cases h : e.1 = key <;> simp [eraseKey, h] <;> omega

theorem eraseKey_length_of_mem (key : String) (c : Cache)
    (h : ∃ x ∈ c, x.1 = key) : (eraseKey key c).length + 1 = c.length := by
  induction c with
  | nil => simp at h
  | cons e es ih =>
    by_cases he : e.1 = key
    · simp [eraseKey, he]
    · obtain ⟨x, hx, hxk⟩ := h
      rcases List.mem_cons.mp hx with rfl | hx
      · exact absurd hxk he
      · simp only [eraseKey, if_neg he, List.length_cons]
        rw [ih ⟨x, hx, hxk⟩]

theorem insertEntry_length_le (key : String) (v : QueryResult × Nat) (c : Cache) :
    (insertEntry key v c).length ≤ c.length + 1 := by
  induction c with
  | nil => simp [insertEntry]
  | cons e es ih =>
    by_cases h : e.1 = key <;> simp [insertEntry, h] <;> omega

theorem getCache_fst_length_le (ttl now : Nat) (q : String) (c : Cache) :
    (getCache ttl now q c).1.length ≤ c.length := by
  rcases hl : cacheLookup (cacheKey q) c with _ | ⟨res, ts⟩ <;>
    simp only [getCache, hl]
  · exact le_refl _
  · split
    · exact eraseKey_length_le _ _
    · exact le_refl _

theorem oldestEntry_mem (e : String × QueryResult × Nat) (es : Cache) :
    oldestEntry e es ∈ e :: es := by
  induction es generalizing e with
  | nil => simp [oldestEntry]
  | cons x xs ih =>
    have hstep : oldestEntry e (x :: xs)
        = oldestEntry (if x.2.2 < e.2.2 then x else e) xs := by
      simp only [oldestEntry, List.foldl_cons]
    rw [hstep]
    have h := ih (if x.2.2 < e.2.2 then x else e)
    by_cases hx : x.2.2 < e.2.2
    · rw [if_pos hx] at h ⊢
      rcases List.mem_cons.mp h with h1 | h1
      · rw [h1]; exact List.mem_cons.mpr (Or.inr (List.mem_cons_self x xs))
      · exact List.mem_cons.mpr (Or.inr (List.mem_cons.mpr (Or.inr h1)))
    · rw [if_neg hx] at h ⊢
      rcases List.mem_cons.mp h with h1 | h1
      · rw [h1]; exact List.mem_cons_self e (x :: xs)
      · exact List.mem_cons.mpr (Or.inr (List.mem_cons.mpr (Or.inr h1)))

theorem oldestEntry_le (e : String × QueryResult × Nat) (es : Cache) :
    ∀ x ∈ e :: es, (oldestEntry e es).2.2 ≤ x.2.2 := by
  induction es generalizing e with
  | nil =>
    intro x hx
    rcases List.mem_cons.mp hx with rfl | hx
    · exact le_refl _
    · simp at hx
  | cons y ys ih =>
    intro x hx
    have hself : (oldestEntry (if y.2.2 < e.2.2 then y else e) ys).2.2
        ≤ (if y.2.2 < e.2.2 then y else e).2.2 :=
      ih (if y.2.2 < e.2.2 then y else e) _ (List.mem_cons_self _ _)
    have hbe : (if y.2.2 < e.2.2 then y else e).2.2 ≤ e.2.2 := by
      by_cases h : y.2.2 < e.2.2 <;> simp [h] <;> omega
    have hby : (if y.2.2 < e.2.2 then y else e).2.2 ≤ y.2.2 := by
      by_cases h : y.2.2 < e.2.2 <;> simp [h] <;> omega
    simp only [oldestEntry, List.foldl_cons] at *
    rcases List.mem_cons.mp hx with rfl | hx
    · exact le_trans hself hbe
    · rcases List.mem_cons.mp hx with rfl | hx
      · exact le_trans hself hby
      · exact ih (if y.2.2 < e.2.2 then y else e) x (List.mem_cons.mpr (Or.inr hx))

theorem not_mem_eraseKey_of_nodup (c : Cache)
    (hnd : (c.map Prod.fst).Nodup) (x : String × QueryResult × Nat) (hx : x ∈ c) :
    x ∉ eraseKey x.1 c := by
  induction c with
  | nil => simp at hx
  | cons e es ih =>
    rw [List.map_cons, List.nodup_cons] at hnd
    obtain ⟨hk, hnd'⟩ := hnd
    rcases List.mem_cons.mp hx with rfl | hx
    · rw [eraseKey, if_pos rfl]
      intro hmem
      exact hk (List.mem_map.mpr ⟨x, hmem, rfl⟩)
    · have hxk : x.1 ∈ es.map Prod.fst := List.mem_map.mpr ⟨x, hx, rfl⟩
      have hne : e.1 ≠ x.1 := fun h => hk (h ▸ hxk)
      rw [eraseKey, if_neg hne]
      intro hmem
      rcases List.mem_cons.mp hmem with rfl | hmem
      · exact hk hxk
      · exact ih hnd' hx hmem

theorem setCache_length_le (max_size now : Nat) (q : String) (r : QueryResult)
    (c : Cache) (hmax : 1 ≤ max_size) (hc : c.length ≤ max_size) :
    (setCache max_size now q r c).length ≤ max_size := by
  by_cases hcap : max_size ≤ c.length
  · cases c with
    | nil => simp at hcap; omega
    | cons e es =>
      have hmem : oldestEntry e es ∈ e :: es := oldestEntry_mem e es
      have hlen : (eraseKey (oldestEntry e es).1 (e :: es)).length + 1
          = (e :: es).length :=
        eraseKey_length_of_mem _ _ ⟨oldestEntry e es, hmem, rfl⟩
      calc (setCache max_size now q r (e :: es)).length
          = (insertEntry (cacheKey q) (r, now)
              (eraseKey (oldestEntry e es).1 (e :: es))).length := by
            simp only [setCache, if_pos hcap]
        _ ≤ (eraseKey (oldestEntry e es).1 (e :: es)).length + 1 :=
            insertEntry_length_le _ _ _
        _ = (e :: es).length := hlen
        _ ≤ max_size := hc
  · calc (setCache max_size now q r c).length
        = (insertEntry (cacheKey q) (r, now) c).length := by
          simp only [setCache, if_neg hcap]
      _ ≤ c.length + 1 := insertEntry_length_le _ _ _
      _ ≤ max_size := by omega

/-- A sequence of raw cache operations (reads and writes), for the
"any sequence of get/set operations" part of C6. -/
inductive CacheOp where
  | get (question : String) (now : Nat)
  | set (question : String) (result : QueryResult) (now : Nat)

/-- Run a sequence of cache operations against a cache. -/
def runCacheOps (ttl max_size : Nat) : List CacheOp → Cache → Cache
  | [], c => c
  | .get q now :: ops, c => runCacheOps ttl max_size ops (getCache ttl now q c).1
  | .set q r now :: ops, c => runCacheOps ttl max_size ops (setCache max_size now q r c)

theorem runCacheOps_length_le (ttl max_size : Nat) (hmax : 1 ≤ max_size)
    (ops : List CacheOp) (c : Cache) (hc : c.length ≤ max_size) :
    (runCacheOps ttl max_size ops c).length ≤ max_size := by
  induction ops generalizing c with
  | nil => exact hc
  | cons op ops ih =>
    cases op with
    | get q now =>
      exact ih _ (le_trans (getCache_fst_length_le ttl now q c) hc)
    | set q r now =>
      exact ih _ (setCache_length_le max_size now q r c hmax hc)

/-- C6: a cache write while the cache holds at least `cache_max_size`
entries evicts exactly one entry — one with the earliest insertion
timestamp among current entries (the first such, under unique keys) —
before inserting the new entry; consequently, starting from an empty
cache, the size never exceeds the maximum after any sequence of get/set
operations (positive capacity; with capacity 0 the source raises on the
first write). -/
theorem C6_capacity_eviction :
    (∀ max_size now question result cache, 1 ≤ max_size →
      ((cache : Cache).map Prod.fst).Nodup → max_size ≤ cache.length →
      ∃ old ∈ cache, (∀ e ∈ cache, old.2.2 ≤ e.2.2)
        ∧ setCache max_size now question result cache
            = insertEntry (cacheKey question) (result, now) (eraseKey old.1 cache)
        ∧ (eraseKey old.1 cache).length + 1 = cache.length
        ∧ old ∉ eraseKey old.1 cache)
    ∧ (∀ ttl max_size ops, 1 ≤ max_size →
        (runCacheOps ttl max_size ops []).length ≤ max_size) := by
  constructor
  · intro max_size now question result cache hmax hnd hcap
    cases cache with
    | nil => simp at hcap; omega
    | cons e es =>
      refine ⟨oldestEntry e es, oldestEntry_mem e es, oldestEntry_le e es, ?_, ?_, ?_⟩
      · simp only [setCache, if_pos hcap]
      · exact eraseKey_length_of_mem _ _ ⟨oldestEntry e es, oldestEntry_mem e es, rfl⟩
      · exact not_mem_eraseKey_of_nodup _ hnd _ (oldestEntry_mem e es)
  · intro ttl max_size ops hmax
    exact runCacheOps_length_le ttl max_size hmax ops [] (by simp)

/-- C6 witness: a write at capacity 1 evicts the single (hence oldest)
entry, and a small op sequence stays within capacity. -/
theorem C6_capacity_eviction_witness :
    (∃ old ∈ [("q", resA, 0)], (∀ e ∈ [("q", resA, 0)], old.2.2 ≤ e.2.2)
      ∧ setCache 1 5 "r" resA [("q", resA, 0)]
          = insertEntry (cacheKey "r") (resA, 5) (eraseKey old.1 [("q", resA, 0)])
      ∧ (eraseKey old.1 [("q", resA, 0)]).length + 1 = [("q", resA, 0)].length
      ∧ old ∉ eraseKey old.1 [("q", resA, 0)])
    ∧ (runCacheOps 10 1 [.set "a" resA 0, .set "b" resA 1, .get "a" 2] []).length ≤ 1 :=
  ⟨C6_capacity_eviction.1 1 5 "r" resA [("q", resA, 0)] (by decide) (by simp)
      (by decide),
   C6_capacity_eviction.2 10 1 [.set "a" resA 0, .set "b" resA 1, .get "a" 2]
      (by decide)⟩

/-! ### C7 / C8: cache hits in `query` -/

theorem getCache_hit (ttl now : Nat) (q : String) (res : QueryResult) (ts : Nat)
    (cache : Cache) (hlk : cacheLookup (cacheKey q) cache = some (res, ts))
    (hfresh : ¬ ttl < now - ts) :
    getCache ttl now q cache = (cache, some res) := by
  simp only [getCache, hlk]
  rw [if_neg hfresh]

theorem getCache_eq_some (ttl now : Nat) (q : String) (cache c2 : Cache)
    (r : QueryResult) (h : getCache ttl now q cache = (c2, some r)) :
    c2 = cache ∧ ∃ ts, cacheLookup (cacheKey q) cache = some (r, ts)
      ∧ ¬ ttl < now - ts := by
  rcases hl : cacheLookup (cacheKey q) cache with _ | ⟨res, ts⟩ <;>
    simp only [getCache, hl] at h
  · rw [Prod.mk.injEq] at h
    exact absurd h.2 (by simp)
  · by_cases hexp : ttl < now - ts
    · rw [if_pos hexp, Prod.mk.injEq] at h
      exact absurd h.2 (by simp)
    · rw [if_neg hexp, Prod.mk.injEq] at h
      obtain ⟨h1, h2⟩ := h
      obtain rfl : res = r := Option.some.inj h2
      exact ⟨h1.symm, ts, hl ▸ rfl, hexp⟩

/-- Behaviour of `query` on a cache hit: fresh copy returned, hit counter
and E2E sum bumped, uncached accounting and the cache untouched. -/
theorem query_hit (cfg : Config) (env : Env) (st : PipeState) (question : Option String)
    (top_k : Option Nat) (use_rerank : Bool) (now elapsed : Nat)
    (res : QueryResult) (ts : Nat)
    (hq : pyStrip (question.getD "") ≠ "")
    (hen : cfg.enable_cache = true)
    (hlk : cacheLookup (cacheKey (pyStrip (question.getD ""))) st.cache
        = some (res, ts))
    (hfresh : ¬ cfg.cache_ttl < now - ts) :
    query cfg env st question top_k true use_rerank now elapsed =
      ({ st with
          total_queries := st.total_queries + 1,
          cache_hits := st.cache_hits + 1,
          total_latency_ms_e2e := st.total_latency_ms_e2e + elapsed },
       { res with from_cache := true, latency_ms := elapsed, timestamp := now }) := by
  simp only [query, if_neg hq, hen, Bool.and_self,
    getCache_hit cfg.cache_ttl now (pyStrip (question.getD "")) res ts st.cache
      hlk hfresh, if_true]

/-- C7: on a cache hit, the caller gets a copy of the stored result with
`from_cache = true` and fresh `latency_ms`/`timestamp`; the hit counter is
incremented and the latency added to the E2E sum; `uncached_queries` and
the uncached-latency sum are untouched; and the cache — in particular the
stored entry with its original `from_cache`/`latency_ms`/`timestamp` — is
unchanged by the read. -/
theorem C7_cache_hit (cfg : Config) (env : Env) (st : PipeState)
    (question : Option String) (top_k : Option Nat) (use_rerank : Bool)
    (now elapsed : Nat) (res : QueryResult) (ts : Nat)
    (hq : pyStrip (question.getD "") ≠ "")
    (hen : cfg.enable_cache = true)
    (hlk : cacheLookup (cacheKey (pyStrip (question.getD ""))) st.cache
        = some (res, ts))
    (hfresh : ¬ cfg.cache_ttl < now - ts) :
    (query cfg env st question top_k true use_rerank now elapsed).2
        = { res with from_cache := true, latency_ms := elapsed, timestamp := now }
    ∧ (query cfg env st question top_k true use_rerank now elapsed).1.cache_hits
        = st.cache_hits + 1
    ∧ (query cfg env st question top_k true use_rerank now
        elapsed).1.total_latency_ms_e2e = st.total_latency_ms_e2e + elapsed
    ∧ (query cfg env st question top_k true use_rerank now
        elapsed).1.uncached_queries = st.uncached_queries
    ∧ (query cfg env st question top_k true use_rerank now
        elapsed).1.total_latency_ms_uncached = st.total_latency_ms_uncached
    ∧ (query cfg env st question top_k true use_rerank now elapsed).1.cache
        = st.cache
    ∧ cacheLookup (cacheKey (pyStrip (question.getD "")))
        (query cfg env st question top_k true use_rerank now elapsed).1.cache
        = some (res, ts) := by
  rw [query_hit cfg env st question top_k use_rerank now elapsed res ts hq hen
    hlk hfresh]
  exact ⟨rfl, rfl, rfl, rfl, rfl, rfl, hlk⟩

/-- C7 witness: a concrete hit on a one-entry cache. -/
theorem C7_cache_hit_witness :
    (query defaultConfig envEmpty
        { initState with cache := [(cacheKey "q", resA, 0)] }
        (some "q") none true true 5 2).2
      = { resA with from_cache := true, latency_ms := 2, timestamp := 5 } :=
  (C7_cache_hit defaultConfig envEmpty
    { initState with cache := [(cacheKey "q", resA, 0)] }
    (some "q") none true 5 2 resA 0 (by decide) rfl (by decide) (by decide)).1

theorem cacheLookup_insertEntry_self (key : String) (v : QueryResult × Nat)
    (c : Cache) : cacheLookup key (insertEntry key v c) = some v := by
  induction c with
  | nil => simp [insertEntry, cacheLookup]
  | cons e es ih =>
    by_cases h : e.1 = key
    · simp [insertEntry, h, cacheLookup]
    · simp [insertEntry, h, cacheLookup, ih]

theorem cacheLookup_setCache_self (max_size now : Nat) (q : String)
    (r : QueryResult) (c : Cache) :
    cacheLookup (cacheKey q) (setCache max_size now q r c) = some (r, now) := by
  simp only [setCache]
  exact cacheLookup_insertEntry_self _ _ _

/-- After a cache-permitted miss path, the result just returned is stored
under the question's key with the call's timestamp. -/
theorem queryMiss_stored (cfg : Config) (env : Env) (st : PipeState) (qc : String)
    (top_k : Option Nat) (ur : Bool) (now elapsed : Nat) :
    cacheLookup (cacheKey qc)
        (queryMiss cfg env st qc top_k ur true now elapsed).1.cache
      = some ((queryMiss cfg env st qc top_k ur true now elapsed).2, now) := by
  rcases hs : env.search qc (top_k.getD cfg.top_k_retrieval) with _ | ⟨d, ds⟩ <;>
    simp only [queryMiss, hs, finalize, Bool.not_false, Bool.and_self, if_true] <;>
    exact cacheLookup_setCache_self _ _ _ _ _

/-- After any non-blank `query` call with caching on, the entry stored under
the question's key (which exists) carries exactly the returned answer. -/
theorem query_stored_answer (cfg : Config) (env : Env) (st : PipeState)
    (question : Option String) (top_k : Option Nat) (ur : Bool)
    (now elapsed : Nat) (r' : QueryResult) (t' : Nat)
    (hq : pyStrip (question.getD "") ≠ "")
    (hen : cfg.enable_cache = true)
    (hlk : cacheLookup (cacheKey (pyStrip (question.getD "")))
        (query cfg env st question top_k true ur now elapsed).1.cache
        = some (r', t')) :
    r'.answer = (query cfg env st question top_k true ur now elapsed).2.answer := by
  rcases hg : getCache cfg.cache_ttl now (pyStrip (question.getD ""))
      ({ st with total_queries := st.total_queries + 1 } : PipeState).cache with
    ⟨cache2, _ | cached⟩
  · have hq1 : query cfg env st question top_k true ur now elapsed
        = queryMiss cfg env
            { st with total_queries := st.total_queries + 1, cache := cache2 }
            (pyStrip (question.getD "")) top_k ur true now elapsed := by
      simp only [query, if_neg hq, hen, Bool.and_self, hg, if_true]
    rw [hq1] at hlk ⊢
    have hstored := queryMiss_stored cfg env
      { st with total_queries := st.total_queries + 1, cache := cache2 }
      (pyStrip (question.getD "")) top_k ur now elapsed
    obtain h := Option.some.inj (hlk.symm.trans hstored)
    rw [Prod.mk.injEq] at h
    rw [h.1]
  · obtain ⟨hc2, ts0, hlk0, hfr0⟩ := getCache_eq_some _ _ _ _ _ _ hg
    have h1 := query_hit cfg env st question top_k ur now elapsed cached ts0 hq hen
      hlk0 hfr0
    rw [h1] at hlk ⊢
    obtain h := Option.some.inj (hlk0.symm.trans hlk)
    rw [Prod.mk.injEq] at h
    rw [← h.1]

/-- C8: asking the same non-blank question twice with caching enabled, with
the stored entry neither TTL-expired nor evicted between the calls, makes
the second call answer from the cache: `from_cache = true` and an answer
string identical to the first call's. -/
theorem C8_repeat_query_cached (cfg : Config) (env : Env) (st : PipeState)
    (q : String) (top_k1 top_k2 : Option Nat) (ur1 ur2 : Bool)
    (now1 e1 now2 e2 : Nat) (res : QueryResult) (ts : Nat)
    (hq : pyStrip q ≠ "")
    (hen : cfg.enable_cache = true)
    (hlk : cacheLookup (cacheKey (pyStrip q))
        (query cfg env st (some q) top_k1 true ur1 now1 e1).1.cache
        = some (res, ts))
    (hfresh : ¬ cfg.cache_ttl < now2 - ts) :
    (query cfg env (query cfg env st (some q) top_k1 true ur1 now1 e1).1
        (some q) top_k2 true ur2 now2 e2).2.from_cache = true
    ∧ (query cfg env (query cfg env st (some q) top_k1 true ur1 now1 e1).1
        (some q) top_k2 true ur2 now2 e2).2.answer
      = (query cfg env st (some q) top_k1 true ur1 now1 e1).2.answer := by
  have hans := query_stored_answer cfg env st (some q) top_k1 ur1 now1 e1 res ts
    hq hen hlk
  have h2 := query_hit cfg env
    (query cfg env st (some q) top_k1 true ur1 now1 e1).1 (some q) top_k2 ur2
    now2 e2 res ts hq hen hlk hfresh
  rw [h2]
  exact ⟨rfl, hans⟩

/-- C8 witness: a concrete question asked twice on a fresh pipeline (the
first call caches the canned no-results answer, the second call serves it
from cache). -/
theorem C8_repeat_query_cached_witness :
    (query defaultConfig envEmpty
        (query defaultConfig envEmpty initState (some "hello") none true true
          10 4).1
        (some "hello") none true true 20 1).2.from_cache = true :=
  (C8_repeat_query_cached defaultConfig envEmpty initState "hello" none none
    true true 10 4 20 1
    ⟨"No relevant information found in the document.", [], [],
      ⟨.LOW, 0, ["NO_SOURCES"]⟩, 4, false, 10⟩ 10
    (by decide) rfl (by decide) (by decide)).1

/-! ### C9: metrics -/

theorem finalize_metrics (cfg : Config) (st : PipeState) (q ans : String)
    (ds : List (Document × ℚ)) (aw : Bool) (now e : Nat) :
    (finalize cfg st q ans ds false aw now e).1.total_queries = st.total_queries
    ∧ (finalize cfg st q ans ds false aw now e).1.cache_hits = st.cache_hits
    ∧ (finalize cfg st q ans ds false aw now e).1.total_latency_ms_e2e
        = st.total_latency_ms_e2e + e
    ∧ (finalize cfg st q ans ds false aw now e).1.uncached_queries
        = st.uncached_queries + 1
    ∧ (finalize cfg st q ans ds false aw now e).1.total_latency_ms_uncached
        = st.total_latency_ms_uncached + e
    ∧ (finalize cfg st q ans ds false aw now e).2.from_cache = false := by
  cases aw with
  | false => exact ⟨rfl, rfl, rfl, rfl, rfl, rfl⟩
  | true => exact ⟨rfl, rfl, rfl, rfl, rfl, rfl⟩

theorem queryMiss_metrics (cfg : Config) (env : Env) (st : PipeState) (qc : String)
    (tk : Option Nat) (ur aw : Bool) (now e : Nat) :
    (queryMiss cfg env st qc tk ur aw now e).1.total_queries = st.total_queries
    ∧ (queryMiss cfg env st qc tk ur aw now e).1.cache_hits = st.cache_hits
    ∧ (queryMiss cfg env st qc tk ur aw now e).1.total_latency_ms_e2e
        = st.total_latency_ms_e2e + e
    ∧ (queryMiss cfg env st qc tk ur aw now e).1.uncached_queries
        = st.uncached_queries + 1
    ∧ (queryMiss cfg env st qc tk ur aw now e).1.total_latency_ms_uncached
        = st.total_latency_ms_uncached + e
    ∧ (queryMiss cfg env st qc tk ur aw now e).2.from_cache = false := by
  rcases hs : env.search qc (tk.getD cfg.top_k_retrieval) with _ | ⟨d, ds⟩ <;>
    simp only [queryMiss, hs] <;>
    exact finalize_metrics ..

/-- Every `query` call bumps `total_queries` by one and adds its latency to
the E2E sum; it is accounted either as a cache hit (hit counter bumped,
uncached counters untouched, `from_cache = true`) or as an uncached call
(hit counter untouched, uncached count and latency bumped,
`from_cache = false`). -/
theorem query_call_delta (cfg : Config) (env : Env) (st : PipeState)
    (question : Option String) (top_k : Option Nat) (use_cache use_rerank : Bool)
    (now elapsed : Nat) :
    (query cfg env st question top_k use_cache use_rerank now
        elapsed).1.total_queries = st.total_queries + 1
    ∧ (query cfg env st question top_k use_cache use_rerank now
        elapsed).1.total_latency_ms_e2e = st.total_latency_ms_e2e + elapsed
    ∧ (((query cfg env st question top_k use_cache use_rerank now
          elapsed).1.cache_hits = st.cache_hits + 1
        ∧ (query cfg env st question top_k use_cache use_rerank now
            elapsed).1.uncached_queries = st.uncached_queries
        ∧ (query cfg env st question top_k use_cache use_rerank now
            elapsed).1.total_latency_ms_uncached = st.total_latency_ms_uncached
        ∧ (query cfg env st question top_k use_cache use_rerank now
            elapsed).2.from_cache = true)
      ∨ ((query cfg env st question top_k use_cache use_rerank now
          elapsed).1.cache_hits = st.cache_hits
        ∧ (query cfg env st question top_k use_cache use_rerank now
            elapsed).1.uncached_queries = st.uncached_queries + 1
        ∧ (query cfg env st question top_k use_cache use_rerank now
            elapsed).1.total_latency_ms_uncached
            = st.total_latency_ms_uncached + elapsed
        ∧ (query cfg env st question top_k use_cache use_rerank now
            elapsed).2.from_cache = false)) := by
  by_cases hq : pyStrip (question.getD "") = ""
  · rw [query_blank cfg env st question top_k use_cache use_rerank now elapsed hq]
    exact ⟨rfl, rfl, Or.inr ⟨rfl, rfl, rfl, rfl⟩⟩
  · by_cases hb : (use_cache && cfg.enable_cache) = true
    · rcases hg : getCache cfg.cache_ttl now (pyStrip (question.getD ""))
          ({ st with total_queries := st.total_queries + 1 } : PipeState).cache with
        ⟨cache2, _ | cached⟩
      · have hq1 : query cfg env st question top_k use_cache use_rerank now elapsed
            = queryMiss cfg env
                { st with total_queries := st.total_queries + 1, cache := cache2 }
                (pyStrip (question.getD "")) top_k use_rerank true now elapsed := by
          simp only [query, if_neg hq, hb, hg, if_true]
        rw [hq1]
        have h := queryMiss_metrics cfg env
          { st with total_queries := st.total_queries + 1, cache := cache2 }
          (pyStrip (question.getD "")) top_k use_rerank true now elapsed
        exact ⟨h.1, h.2.2.1, Or.inr ⟨h.2.1, h.2.2.2.1, h.2.2.2.2.1, h.2.2.2.2.2⟩⟩
      · have hq1 : query cfg env st question top_k use_cache use_rerank now elapsed
            = ({ st with
                  total_queries := st.total_queries + 1,
                  cache := cache2,
                  cache_hits := st.cache_hits + 1,
                  total_latency_ms_e2e := st.total_latency_ms_e2e + elapsed },
               { cached with
                  from_cache := true, latency_ms := elapsed, timestamp := now }) := by
          simp only [query, if_neg hq, hb, hg, if_true]
        rw [hq1]
        exact ⟨rfl, rfl, Or.inl ⟨rfl, rfl, rfl, rfl⟩⟩
    · have hq1 : query cfg env st question top_k use_cache use_rerank now elapsed
          = queryMiss cfg env { st with total_queries := st.total_queries + 1 }
              (pyStrip (question.getD "")) top_k use_rerank
              (use_cache && cfg.enable_cache) now elapsed := by
        simp only [query, if_neg hq, hb, if_false, Bool.false_eq_true]
      rw [hq1]
      have h := queryMiss_metrics cfg env
        { st with total_queries := st.total_queries + 1 }
        (pyStrip (question.getD "")) top_k use_rerank
        (use_cache && cfg.enable_cache) now elapsed
      exact ⟨h.1, h.2.2.1, Or.inr ⟨h.2.1, h.2.2.2.1, h.2.2.2.2.1, h.2.2.2.2.2⟩⟩

/-- The final state of three concrete calls: "a" missed, "a" hit, "b"
missed (N = 2 uncached, M = 1 cache hit). -/
def c9run : PipeState :=
  (query defaultConfig envEmpty
    (query defaultConfig envEmpty
      (query defaultConfig envEmpty initState (some "a") none true true 0 10).1
      (some "a") none true true 1 5).1
    (some "b") none true true 2 6).1

/-- C9 counterexample: in the state reached by 2 uncached queries and 1
cache hit, the reported `cache_hit_rate` is the 3-decimal rounding 0.333,
not M/(N+M) = 1/3 as the claim states. -/
theorem C9_counterexample :
    c9run.total_queries = 3 ∧ c9run.cache_hits = 1 ∧ c9run.uncached_queries = 2
    ∧ (get_metrics c9run).cache_hit_rate = 333/1000
    ∧ (get_metrics c9run).cache_hit_rate ≠ (1 : ℚ)/3 := by
  have h1 : c9run.total_queries = 3 := by decide
  have h2 : c9run.cache_hits = 1 := by decide
  have h3 : c9run.uncached_queries = 2 := by decide
  have hrate : (get_metrics c9run).cache_hit_rate = 333/1000 := by
    simp only [get_metrics, h1, h2]
    norm_num [pyRound, roundHalfEven, ratFloor_eq_intFloor]
  exact ⟨h1, h2, h3, hrate, by rw [hrate]; norm_num⟩

/-- C9 (amended): `get_metrics` reads the stored counters at call time:
after N uncached and M cache-hit queries it reports
`total_queries = N + M`, `cache_hits = M`, `cache_hit_rate` =
round₃(M/(N+M)) (0 with no queries), `avg_latency_e2e_ms` =
round₂(E2E sum / (N+M)) (`None` with no queries), and
`avg_latency_uncached_ms` = round₂(uncached sum / N) (`None` with no
uncached queries); and each query call adds 1 to `total_queries`,
classifying itself as exactly one of cache-hit / uncached (see
`query_call_delta`, restated here). -/
theorem C9_metrics_consistency :
    (∀ st : PipeState, ∀ N M : Nat,
      st.total_queries = N + M → st.cache_hits = M →
      (get_metrics st).total_queries = N + M
      ∧ (get_metrics st).cache_hits = M
      ∧ (N + M = 0 →
          (get_metrics st).cache_hit_rate = 0
          ∧ (get_metrics st).avg_latency_e2e_ms = none)
      ∧ (N + M ≠ 0 →
          (get_metrics st).cache_hit_rate = pyRound ((M : ℚ) / ((N + M : Nat) : ℚ)) 3
          ∧ (get_metrics st).avg_latency_e2e_ms
              = some (pyRound ((st.total_latency_ms_e2e : ℚ) / ((N + M : Nat) : ℚ)) 2))
      ∧ (st.uncached_queries = 0 → (get_metrics st).avg_latency_uncached_ms = none)
      ∧ (st.uncached_queries ≠ 0 →
          (get_metrics st).avg_latency_uncached_ms
            = some (pyRound ((st.total_latency_ms_uncached : ℚ)
                / (st.uncached_queries : ℚ)) 2)))
    ∧ (∀ cfg env st question top_k use_cache use_rerank now elapsed,
        (query cfg env st question top_k use_cache use_rerank now
            (elapsed : Nat)).1.total_queries = st.total_queries + 1
        ∧ (((query cfg env st question top_k use_cache use_rerank now
              elapsed).1.cache_hits = st.cache_hits + 1
            ∧ (query cfg env st question top_k use_cache use_rerank now
                elapsed).1.uncached_queries = st.uncached_queries)
          ∨ ((query cfg env st question top_k use_cache use_rerank now
              elapsed).1.cache_hits = st.cache_hits
            ∧ (query cfg env st question top_k use_cache use_rerank now
                elapsed).1.uncached_queries = st.uncached_queries + 1))) := by
  constructor
  · intro st N M h1 h2
    refine ⟨by simp [get_metrics, h1], by simp [get_metrics, h2], ?_, ?_, ?_, ?_⟩
    · intro h0
      constructor
      · norm_num [get_metrics, h1, h0, pyRound, roundHalfEven, ratFloor_eq_intFloor]
      · simp [get_metrics, h1, h0]
    · intro h0
      constructor
      · simp only [get_metrics, h1, h2, if_neg h0]
      · simp only [get_metrics, h1, if_neg h0]
        rfl
    · intro h0
      simp [get_metrics, h0]
    · intro h0
      simp only [get_metrics, if_neg h0]
      rfl
  · intro cfg env st question top_k use_cache use_rerank now elapsed
    obtain ⟨ht, _, hcase⟩ :=
      query_call_delta cfg env st question top_k use_cache use_rerank now elapsed
    refine ⟨ht, ?_⟩
    rcases hcase with ⟨ha, hb, _, _⟩ | ⟨ha, hb, _, _⟩
    · exact Or.inl ⟨ha, hb⟩
    · exact Or.inr ⟨ha, hb⟩

/-- C9 witness: the amended metrics readout on the concrete 3-call state. -/
theorem C9_metrics_consistency_witness :
    (get_metrics c9run).total_queries = 2 + 1 ∧ (get_metrics c9run).cache_hits = 1 :=
  ⟨(C9_metrics_consistency.1 c9run 2 1 (by decide) (by decide)).1,
   (C9_metrics_consistency.1 c9run 2 1 (by decide) (by decide)).2.1⟩

end LvmhRag
